import Mathlib

/-!
Shallow embedding of the NovaDocs real-time collaboration engine
(`apps/backend/src/services/collaboration.py`, with the inbound message
dispatch of `apps/backend/src/api/websocket/collaboration.py`).

Modelling conventions:
* byte strings (`bytes`) are `List Nat`; the `.hex()` / `bytes.fromhex`
  round-trip on the wire is kept, with `bytes.fromhex` embedded as a strict
  hex-pair decoder (the whitespace tolerance of CPython's `fromhex` is not
  modelled; no claim depends on it);
* a WebSocket handle is a `Nat` identifier; the environment is a function
  `ok : Nat → Bool` saying whether a `send_text` on that handle succeeds
  (the `except` branches of `_send_to_user` / `_broadcast_except_user`);
* `datetime.now()` is an explicit `now : Int` argument (seconds);
* Python dicts (`connections`, `users`, `documents`) are association lists
  in insertion order: assignment replaces in place or appends, `del` removes;
* every external interaction (WebSocket sends, Redis presence/cache calls,
  the database write of `_persist_document_state`, `websocket.close`) is
  recorded in an ordered effect trace `List Eff`;
* the manager's `self.lock` is an `asyncio.Lock`, which is **not reentrant**.
  Every operation here is executed by a single task, so acquiring a free
  lock succeeds immediately and acquiring a lock already held by the same
  task blocks forever.  The lock is modelled by a `locked : Bool` argument
  ("does the current task already hold this manager's lock?"), and every
  operation result is a `StepResult` carrying a `completed` flag:
  `completed = false` means the task blocked forever at
  `async with self.lock` — the state and trace are what had already
  happened at that point, and nothing past the blocking point runs.
  `add_user`, `remove_user` and `handle_yjs_update` acquire the lock;
  `handle_cursor_update`, `cleanup_inactive_users` and the private helpers
  do not.  Consequently a `remove_user` reached from a failed broadcast
  send inside a lock-holding operation deadlocks (see the C8 theorems);
* the recursion `remove_user → _broadcast_except_user → remove_user` that a
  failing peer send can trigger is bounded by an explicit fuel argument;
  fuel only gates that syntactic recursion and entry points supply
  `connections.length + 1` (with the lock modelled the cascade in fact
  blocks at depth one, so the bound is never reached).
-/

/-- Byte strings (`bytes` payloads) as lists of byte values. -/
abbrev Bytes := List Nat

/-- `CollaborationUser` dataclass of `services/collaboration.py`. -/
structure CollaborationUser where
  user_id : String
  name : String
  color : String
  cursor_position : Option Int := none
  selection : Option String := none
  last_seen : Option Int := none
deriving DecidableEq

/-- `YjsUpdate` dataclass of `services/collaboration.py`. -/
structure YjsUpdate where
  doc_id : String
  user_id : String
  update_data : Bytes
  timestamp : Int
  version : Nat
deriving DecidableEq

/-- The per-user dict sent in `users_updated` messages
(`{id, name, color, cursor_position, selection}`). -/
structure UserBrief where
  id : String
  name : String
  color : String
  cursor_position : Option Int
  selection : Option String
deriving DecidableEq

/-- Outbound wire-protocol messages (the `"type"`-discriminated JSON dicts
sent over a session's WebSocket).  `pong` and `error` are part of the
protocol space described by the spec; whether the code emits them is
settled by theorems below. -/
inductive Msg where
  | sync_state (state : Bytes) (version : Nat)
  | users_updated (users : List UserBrief)
  | user_joined (id name color : String)
  | user_left (id name : String)
  | yjs_update (update : Bytes) (version : Nat) (user_id : String)
  | cursor_update (user_id : String) (position : Option Int) (selection : Option String)
  | pong (timestamp : Int)
  | error (message : String)
deriving DecidableEq

/-- External interactions, recorded in program order. -/
inductive Eff where
  /-- a successful `websocket.send_text` to the session of `to_user` -/
  | send (to_user : String) (msg : Msg)
  /-- a `send_text` that raised (logged, target treated as disconnected) -/
  | send_failed (to_user : String) (msg : Msg)
  /-- `redis_manager.set_user_presence(user_id, doc_id, …)` -/
  | set_user_presence (user_id doc_id : String)
  /-- `redis_manager.remove_user_presence(user_id, doc_id)` -/
  | remove_user_presence (user_id doc_id : String)
  /-- `redis_manager.cache_document(doc_id, {state, version, …})` -/
  | cache_document (doc_id : String) (state : Bytes) (version : Nat)
  /-- `redis_manager.publish_cursor_update(doc_id, {…})` -/
  | publish_cursor_update (doc_id user_id : String) (position : Option Int) (selection : Option String)
  /-- an invocation of `_persist_document_state` -/
  | persist_attempt (doc_id : String)
  /-- the `UPDATE pages SET content = …` statement inside `_persist_document_state` -/
  | db_write (doc_id : String) (content : Bytes) (version : Nat)
  /-- `websocket.close(code=…, reason=…)` -/
  | close (code : Nat) (reason : String)
deriving DecidableEq

/-- State of one `DocumentCollaborationManager`. -/
structure DocumentCollaborationManager where
  doc_id : String
  connections : List (String × Nat) := []
  users : List (String × CollaborationUser) := []
  document_state : Option Bytes := none
  update_queue : List YjsUpdate := []
  version : Nat := 0
deriving DecidableEq

/-- `DocumentCollaborationManager.__init__(doc_id)`.  The manager's
`asyncio.Lock` is created free; lock possession is tracked by the `locked`
arguments below rather than by a state field, because each embedded run is
one task's execution. -/
def init_manager (doc_id : String) : DocumentCollaborationManager :=
  { doc_id := doc_id }

/-- Outcome of one embedded operation: the manager state, the effects
emitted so far, and whether the operation ran to completion.
`completed = false` means the task blocked forever re-acquiring the
manager's non-reentrant `asyncio.Lock`; `state` and `trace` are what had
already happened when it blocked, and nothing after the blocking point
runs. -/
structure StepResult where
  state : DocumentCollaborationManager
  trace : List Eff
  completed : Bool
deriving DecidableEq

/-- Python `d[k] = v` on an insertion-ordered dict: replace in place if the
key exists, else append. -/
def dictSet (l : List (String × α)) (k : String) (v : α) : List (String × α) :=
  if l.any (fun p => p.1 == k) then
    l.map (fun p => if p.1 == k then (k, v) else p)
  else l ++ [(k, v)]

/-- Python `if k in d: del d[k]`. -/
def dictDel (l : List (String × α)) (k : String) : List (String × α) :=
  l.filter (fun p => p.1 != k)

/-- Python `d.get(k)` / guarded `d[k]`. -/
def dictGet (l : List (String × α)) (k : String) : Option α :=
  match l with
  | [] => none
  | p :: rest => if p.1 == k then some p.2 else dictGet rest k

/-- Python `k in d`. -/
def hasKey (l : List (String × α)) (k : String) : Bool :=
  l.any (fun p => p.1 == k)

/-- Python truthiness of `Optional[bytes]`: `None` and `b""` are falsy. -/
def truthy : Option Bytes → Bool
  | none => false
  | some b => !b.isEmpty

/-- The sends of one `_broadcast_except_user` pass: one `send`/`send_failed`
per connection whose key differs from `except_user_id`, in iteration order. -/
def broadcast_sends (ok : Nat → Bool) (s : DocumentCollaborationManager)
    (except_user_id : String) (message : Msg) : List Eff :=
  s.connections.filterMap (fun p =>
    if p.1 ≠ except_user_id then
      some (if ok p.2 then Eff.send p.1 message else Eff.send_failed p.1 message)
    else none)

/-- The `disconnected_users` list collected by `_broadcast_except_user`:
targets whose send raised. -/
def disconnected_of (ok : Nat → Bool) (s : DocumentCollaborationManager)
    (except_user_id : String) : List String :=
  s.connections.filterMap (fun p =>
    if p.1 ≠ except_user_id ∧ ok p.2 = false then some p.1 else none)

/-- The `for user_id in disconnected_users: await self.remove_user(user_id)`
loop, parameterised by the removal operation.  A removal that blocks stops
the loop forever: later list entries are never reached. -/
def remove_all_with (rm : DocumentCollaborationManager → String → StepResult) :
    DocumentCollaborationManager → List String → StepResult
  | s, [] => ⟨s, [], true⟩
  | s, u :: rest =>
    let r1 := rm s u
    match r1.completed with
    | true =>
      let r2 := remove_all_with rm r1.state rest
      ⟨r2.state, r1.trace ++ r2.trace, r2.completed⟩
    | false => r1

/-- `_broadcast_except_user(except_user_id, message)` parameterised by the
removal operation used on disconnected targets.  All sends happen first
(the loop catches per-target exceptions); the collected disconnected
targets are removed afterwards. -/
def broadcast_except_user_with (rm : DocumentCollaborationManager → String →
    StepResult) (ok : Nat → Bool)
    (s : DocumentCollaborationManager) (except_user_id : String) (message : Msg) :
    StepResult :=
  let sends := broadcast_sends ok s except_user_id message
  let r := remove_all_with rm s (disconnected_of ok s except_user_id)
  ⟨r.state, sends ++ r.trace, r.completed⟩

/-- `remove_user(user_id)`, fuel-indexed.  Its first statement is
`async with self.lock`: with `locked = true` (the current task already
holds the lock, i.e. it is inside `add_user`, `remove_user` or
`handle_yjs_update`) the non-reentrant acquisition blocks forever and
nothing below it runs.  With the lock acquired: delete the connection
entry, then — if the user is registered — delete the user entry, broadcast
`user_left` (whose failing targets are removed recursively, now with the
lock held), and delete the Redis presence record.  The lock is released
only on completion. -/
def remove_user_fuel (ok : Nat → Bool) : Nat → Bool →
    DocumentCollaborationManager → String → StepResult
  | _, true, s, _ => ⟨s, [], false⟩
  | 0, false, s, _ => ⟨s, [], true⟩
  | fuel + 1, false, s, user_id =>
    let s1 := { s with connections := dictDel s.connections user_id }
    match dictGet s1.users user_id with
    | none => ⟨s1, [], true⟩
    | some cu =>
      let s2 := { s1 with users := dictDel s1.users user_id }
      let r := broadcast_except_user_with
        (fun s' v => remove_user_fuel ok fuel true s' v) ok s2 user_id
        (Msg.user_left user_id cu.name)
      match r.completed with
      | true =>
        ⟨r.state, r.trace ++ [Eff.remove_user_presence user_id r.state.doc_id],
         true⟩
      | false => r

/-- `DocumentCollaborationManager.remove_user` invoked with the manager's
lock free (from `leave_document`, the kick endpoint, the cleanup sweep, or
a cursor-broadcast failure). -/
def remove_user (ok : Nat → Bool) (s : DocumentCollaborationManager)
    (user_id : String) : StepResult :=
  remove_user_fuel ok (s.connections.length + 1) false s user_id

/-- `DocumentCollaborationManager._broadcast_except_user` (entry point).
`locked` records whether the calling operation holds the manager's lock:
`true` from `add_user`/`handle_yjs_update`, `false` from
`handle_cursor_update`.  The removal of a disconnected target calls
`remove_user`, which re-acquires the lock. -/
def broadcast_except_user (ok : Nat → Bool) (locked : Bool)
    (s : DocumentCollaborationManager)
    (except_user_id : String) (message : Msg) : StepResult :=
  broadcast_except_user_with
    (fun s' v => remove_user_fuel ok (s.connections.length + 1) locked s' v)
    ok s except_user_id message

/-- `_send_to_user(user_id, message)`: look the connection up, send; a raise
is logged and answered by `remove_user(user_id)`.  Its only caller,
`add_user`, holds the manager's lock (`locked = true`), so that removal
attempt deadlocks. -/
def send_to_user (ok : Nat → Bool) (locked : Bool)
    (s : DocumentCollaborationManager)
    (user_id : String) (message : Msg) : StepResult :=
  match dictGet s.connections user_id with
  | none => ⟨s, [], true⟩
  | some ws =>
    if ok ws then ⟨s, [Eff.send user_id message], true⟩
    else
      let r := remove_user_fuel ok (s.connections.length + 1) locked s user_id
      ⟨r.state, Eff.send_failed user_id message :: r.trace, r.completed⟩

/-- The `user_info: Dict[str, Any]` argument of `add_user`: only the keys the
code reads (`.get("name", "Unknown")`, `.get("color", "#3B82F6")`). -/
structure UserInfo where
  name : Option String := none
  color : Option String := none
deriving DecidableEq

/-- The per-user dict built inside the `users_updated` message. -/
def user_brief (cu : CollaborationUser) : UserBrief :=
  { id := cu.user_id, name := cu.name, color := cu.color,
    cursor_position := cu.cursor_position, selection := cu.selection }

/-- `add_user(user_id, websocket, user_info)`.  Runs under
`async with self.lock`, so every send/broadcast below is issued with
`locked = true` and a failing send deadlocks inside the nested
`remove_user`.  Returns `none` where the Python would raise `KeyError`
(`self.users[user_id]` after the user disappeared from the map — with the
lock modelled this branch is unreachable, because the removal that could
delete the entry blocks first). -/
def add_user (ok : Nat → Bool) (now : Int) (s : DocumentCollaborationManager)
    (user_id : String) (websocket : Nat) (user_info : UserInfo) :
    Option StepResult :=
  let s1 := { s with
    connections := dictSet s.connections user_id websocket,
    users := dictSet s.users user_id
      { user_id := user_id,
        name := user_info.name.getD "Unknown",
        color := user_info.color.getD "#3B82F6",
        last_seen := some now } }
  let r2 :=
    if truthy s1.document_state then
      send_to_user ok true s1 user_id
        (Msg.sync_state (s1.document_state.getD []) s1.version)
    else ⟨s1, [], true⟩
  match r2.completed with
  | false => some r2
  | true =>
    let r3 := send_to_user ok true r2.state user_id
      (Msg.users_updated (r2.state.users.map (fun p => user_brief p.2)))
    match r3.completed with
    | false => some ⟨r3.state, r2.trace ++ r3.trace, false⟩
    | true =>
      match dictGet r3.state.users user_id with
      | none => none
      | some cu =>
        let r4 := broadcast_except_user ok true r3.state user_id
          (Msg.user_joined user_id cu.name cu.color)
        match r4.completed with
        | false => some ⟨r4.state, r2.trace ++ r3.trace ++ r4.trace, false⟩
        | true =>
          match dictGet r4.state.users user_id with
          | none => none
          | some _ =>
            some ⟨r4.state,
              r2.trace ++ r3.trace ++ r4.trace ++
                [Eff.set_user_presence user_id r4.state.doc_id],
              true⟩

/-- `_persist_document_state()`: the invocation is recorded as
`persist_attempt`; the `UPDATE pages …` statement runs only past the
`if not self.document_state: return` guard (`None` and `b""` are falsy). -/
def persist_document_state (s : DocumentCollaborationManager) : List Eff :=
  if truthy s.document_state then
    [Eff.persist_attempt s.doc_id,
     Eff.db_write s.doc_id (s.document_state.getD []) s.version]
  else [Eff.persist_attempt s.doc_id]

/-- `handle_yjs_update(user_id, update_data)`: under `async with self.lock`,
append to `update_queue`, bump `version`, replace `document_state`,
broadcast `yjs_update` to the others (`locked = true`: a failing peer send
deadlocks and the cache/persist steps below never run), cache in Redis,
and every 10th version invoke `_persist_document_state`. -/
def handle_yjs_update (ok : Nat → Bool) (now : Int)
    (s : DocumentCollaborationManager) (user_id : String) (update_data : Bytes) :
    StepResult :=
  let update : YjsUpdate :=
    { doc_id := s.doc_id, user_id := user_id, update_data := update_data,
      timestamp := now, version := s.version + 1 }
  let s1 := { s with
    update_queue := s.update_queue ++ [update],
    version := s.version + 1,
    document_state := some update_data }
  let r := broadcast_except_user ok true s1 user_id
    (Msg.yjs_update update_data s1.version user_id)
  match r.completed with
  | false => r
  | true =>
    let t := r.trace ++ [Eff.cache_document r.state.doc_id update_data r.state.version]
    if r.state.version % 10 = 0 then ⟨r.state, t ++ persist_document_state r.state, true⟩
    else ⟨r.state, t, true⟩

/-- The `cursor_data: Dict[str, Any]` argument: the keys the code reads. -/
structure CursorData where
  position : Option Int := none
  selection : Option String := none
deriving DecidableEq

/-- `handle_cursor_update(user_id, cursor_data)`.  The only manager
operation that broadcasts without holding the lock (`locked = false`), so a
failing peer send here does start a real removal — whose own `user_left`
broadcast then runs with the lock held. -/
def handle_cursor_update (ok : Nat → Bool) (now : Int)
    (s : DocumentCollaborationManager) (user_id : String) (cursor_data : CursorData) :
    StepResult :=
  if hasKey s.users user_id then
    let s1 := { s with users := s.users.map (fun p =>
      if p.1 == user_id then
        (p.1, { p.2 with
          cursor_position := cursor_data.position,
          selection := cursor_data.selection,
          last_seen := some now })
      else p) }
    let r := broadcast_except_user ok false s1 user_id
      (Msg.cursor_update user_id cursor_data.position cursor_data.selection)
    match r.completed with
    | true =>
      ⟨r.state, r.trace ++ [Eff.publish_cursor_update r.state.doc_id user_id
        cursor_data.position cursor_data.selection], true⟩
    | false => r
  else ⟨s, [], true⟩

/-- `cleanup_inactive_users()`: evict every user whose `last_seen` is older
than `now - timedelta(minutes=5)` via `remove_user` (the sweep does not
hold the lock; each eviction acquires it). -/
def cleanup_inactive_users (ok : Nat → Bool) (now : Int)
    (s : DocumentCollaborationManager) : StepResult :=
  let cutoff := now - 5 * 60
  let inactive := s.users.filterMap (fun p =>
    match p.2.last_seen with
    | some t => if t < cutoff then some p.1 else none
    | none => none)
  remove_all_with (remove_user ok) s inactive

/-- State of the process-wide `CollaborationService`. -/
structure CollaborationService where
  documents : List (String × DocumentCollaborationManager) := []
deriving DecidableEq

/-- `CollaborationService.join_document(doc_id, user_id, websocket,
user_info)`: permission check (`perm`), on denial close `4003 Forbidden` and
return; on approval lazily create the manager and delegate to `add_user`. -/
def join_document (perm : String → String → Bool) (ok : Nat → Bool) (now : Int)
    (svc : CollaborationService) (doc_id user_id : String) (websocket : Nat)
    (user_info : UserInfo) : Option (CollaborationService × List Eff × Bool) :=
  if perm user_id doc_id then
    let svc1 :=
      if hasKey svc.documents doc_id then svc
      else { documents := dictSet svc.documents doc_id (init_manager doc_id) }
    match dictGet svc1.documents doc_id with
    | none => none
    | some doc_manager =>
      match add_user ok now doc_manager user_id websocket user_info with
      | none => none
      | some r =>
        some ({ documents := dictSet svc1.documents doc_id r.state },
          r.trace, r.completed)
  else
    some (svc, [Eff.close 4003 "Forbidden"], true)

/-- A decoded inbound JSON message: the keys the dispatcher reads. -/
structure InboundMessage where
  type : Option String := none
  update : Option String := none
  data : Option CursorData := none
deriving DecidableEq

/-- Value of one hex digit. -/
def hex_digit_value (c : Char) : Option Nat :=
  if '0' ≤ c ∧ c ≤ '9' then some (c.toNat - '0'.toNat)
  else if 'a' ≤ c ∧ c ≤ 'f' then some (c.toNat - 'a'.toNat + 10)
  else if 'A' ≤ c ∧ c ≤ 'F' then some (c.toNat - 'A'.toNat + 10)
  else none

/-- `bytes.fromhex` on a character list: pairs of hex digits; an odd length
or a non-hex character raises `ValueError` (`none`). -/
def bytes_fromhex_chars : List Char → Option Bytes
  | [] => some []
  | [_] => none
  | a :: b :: rest =>
    match hex_digit_value a, hex_digit_value b, bytes_fromhex_chars rest with
    | some hi, some lo, some r => some ((16 * hi + lo) :: r)
    | _, _, _ => none

/-- `bytes.fromhex`. -/
def bytes_fromhex (s : String) : Option Bytes :=
  bytes_fromhex_chars s.data

/-- `CollaborationService.handle_websocket_message(doc_id, user_id, message)`:
route on `message.get("type")`; `yjs_update` decodes
`message.get("update", "")`, `cursor_update` forwards
`message.get("data", {})`, `ping` refreshes `last_seen`, anything else is
ignored.  `none` models an uncaught exception (`bytes.fromhex` raising);
the manager object is mutated in place, so its state is visible through the
registry even when the handling task blocks (`completed = false`). -/
def handle_websocket_message (ok : Nat → Bool) (now : Int)
    (svc : CollaborationService) (doc_id user_id : String)
    (message : InboundMessage) : Option (CollaborationService × List Eff × Bool) :=
  match dictGet svc.documents doc_id with
  | none => some (svc, [], true)
  | some doc_manager =>
    if message.type == some "yjs_update" then
      match bytes_fromhex (message.update.getD "") with
      | none => none
      | some update_data =>
        let r := handle_yjs_update ok now doc_manager user_id update_data
        some ({ documents := dictSet svc.documents doc_id r.state },
          r.trace, r.completed)
    else if message.type == some "cursor_update" then
      let r := handle_cursor_update ok now doc_manager user_id
        (message.data.getD {})
      some ({ documents := dictSet svc.documents doc_id r.state },
        r.trace, r.completed)
    else if message.type == some "ping" then
      let m :=
        if hasKey doc_manager.users user_id then
          { doc_manager with users := doc_manager.users.map (fun p =>
            if p.1 == user_id then (p.1, { p.2 with last_seen := some now }) else p) }
        else doc_manager
      some ({ documents := dictSet svc.documents doc_id m }, [], true)
    else some (svc, [], true)

/-- A sequence of `handle_yjs_update` calls on one manager, with the traces
concatenated in order.  The calls are issued sequentially by one reader
task, so an update that blocks stops the sequence: later updates never
run. -/
def apply_updates (ok : Nat → Bool) (now : Int) :
    DocumentCollaborationManager → List (String × Bytes) → StepResult
  | s, [] => ⟨s, [], true⟩
  | s, (u, b) :: rest =>
    let r1 := handle_yjs_update ok now s u b
    match r1.completed with
    | true =>
      let r2 := apply_updates ok now r1.state rest
      ⟨r2.state, r1.trace ++ r2.trace, r2.completed⟩
    | false => r1

/-! ## Dictionary lemmas -/

lemma dictGet_dictSet (l : List (String × α)) (k : String) (v : α) :
    dictGet (dictSet l k v) k = some v := by
  unfold dictSet
  split
  · rename_i h
    induction l with
    | nil => simp at h
    | cons p rest ih =>
      by_cases hp : p.1 == k
      · simp [dictGet, hp]
      · simp only [List.any_cons, hp, Bool.false_or] at h
        simp only [List.map_cons, hp, ite_false, dictGet]
        rw [if_neg (by simpa using hp)]
        exact ih h
  · induction l with
    | nil => simp [dictGet]
    | cons p rest ih =>
      rename_i h
      simp only [List.any_cons, Bool.or_eq_true] at h
      push_neg at h
      simp only [List.cons_append, dictGet]
      rw [if_neg (by simpa using h.1)]
      exact ih (by simpa [List.any_eq_true] using h.2)

lemma dictGet_eq_none_of_hasKey_false (l : List (String × α)) (k : String)
    (h : hasKey l k = false) : dictGet l k = none := by
  induction l with
  | nil => rfl
  | cons p rest ih =>
    simp only [hasKey, List.any_cons, Bool.or_eq_false_iff] at h
    simp only [dictGet]
    rw [if_neg (by simpa using h.1)]
    exact ih (by simpa [hasKey] using h.2)

lemma hasKey_false_iff (l : List (String × α)) (k : String) :
    hasKey l k = false ↔ ∀ p ∈ l, p.1 ≠ k := by
  simp [hasKey, List.any_eq_true]

lemma hasKey_false_of_sublist {l l' : List (String × α)} (k : String)
    (hs : l'.Sublist l) (h : hasKey l k = false) : hasKey l' k = false := by
  rw [hasKey_false_iff] at h ⊢
  exact fun p hp => h p (hs.subset hp)

lemma dictDel_sublist (l : List (String × α)) (k : String) :
    (dictDel l k).Sublist l :=
  List.filter_sublist l

lemma hasKey_dictDel (l : List (String × α)) (k : String) :
    hasKey (dictDel l k) k = false := by
  rw [hasKey_false_iff]
  intro p hp
  have := List.of_mem_filter hp
  simpa using this

lemma dictDel_eq_self (l : List (String × α)) (k : String)
    (h : hasKey l k = false) : dictDel l k = l := by
  rw [hasKey_false_iff] at h
  apply List.filter_eq_self.mpr
  intro p hp
  simpa using h p hp

lemma mem_dictSet {l : List (String × α)} {k : String} {v : α} {p : String × α}
    (hp : p ∈ dictSet l k v) : p ∈ l ∨ p = (k, v) := by
  unfold dictSet at hp
  split at hp
  · rcases List.mem_map.mp hp with ⟨q, hq, hqe⟩
    by_cases hk : q.1 == k
    · simp only [hk, ite_true] at hqe
      exact Or.inr hqe.symm
    · simp only [hk, ite_false] at hqe
      exact Or.inl (hqe ▸ hq)
  · rcases List.mem_append.mp hp with h | h
    · exact Or.inl h
    · exact Or.inr (by simpa using h)

lemma filterMap_map_set (l : List (String × α)) (k : String) (v : α)
    (f : String × α → Option β) (hf : ∀ w, f (k, w) = none) :
    (l.map (fun p => if p.1 == k then (k, v) else p)).filterMap f =
      l.filterMap f := by
  induction l with
  | nil => rfl
  | cons p rest ih =>
    simp only [List.map_cons, List.filterMap_cons]
    by_cases hk : (p.1 == k) = true
    · have hp1 : p.1 = k := beq_iff_eq.mp hk
      have hfp : f p = none := by
        obtain ⟨a, b⟩ := p
        simp only at hp1
        subst hp1
        exact hf b
      rw [if_pos hk]
      simp only [hf, hfp, ih]
    · rw [if_neg hk]
      cases hfp : f p <;> simp only [hfp, ih]

lemma filterMap_dictSet (l : List (String × α)) (k : String) (v : α)
    (f : String × α → Option β) (hf : ∀ w, f (k, w) = none) :
    (dictSet l k v).filterMap f = l.filterMap f := by
  unfold dictSet
  split
  · exact filterMap_map_set l k v f hf
  · simp [List.filterMap_append, hf]

lemma dictGet_map_if (l : List (String × α)) (k : String) (f : α → α) :
    dictGet (l.map (fun p => if p.1 == k then (p.1, f p.2) else p)) k =
      (dictGet l k).map f := by
  induction l with
  | nil => rfl
  | cons p rest ih =>
    by_cases hk : (p.1 == k) = true
    · simp [dictGet, hk]
    · have hhead : (if (p.1 == k) = true then (p.1, f p.2) else p) = p := if_neg hk
      rw [List.map_cons, hhead]
      simp only [dictGet]
      rw [if_neg hk, if_neg hk]
      exact ih

/-! ## Cascade lemmas: the `remove_user` / `_broadcast_except_user` recursion
only touches `connections` and `users`, only shrinks them, and only emits
`user_left` sends, failed sends, and presence removals. -/

/-- The fields a removal cascade never touches. -/
def sameCore (s t : DocumentCollaborationManager) : Prop :=
  t.doc_id = s.doc_id ∧ t.version = s.version ∧
  t.document_state = s.document_state ∧ t.update_queue = s.update_queue

lemma sameCore_refl (s : DocumentCollaborationManager) : sameCore s s :=
  ⟨rfl, rfl, rfl, rfl⟩

lemma sameCore_trans {s t w : DocumentCollaborationManager}
    (h1 : sameCore s t) (h2 : sameCore t w) : sameCore s w :=
  ⟨h2.1.trans h1.1, h2.2.1.trans h1.2.1, h2.2.2.1.trans h1.2.2.1,
   h2.2.2.2.trans h1.2.2.2⟩

lemma remove_all_with_core
    (rm : DocumentCollaborationManager → String → StepResult)
    (h : ∀ s u, sameCore s (rm s u).state) :
    ∀ (ids : List String) (s), sameCore s (remove_all_with rm s ids).state := by
  intro ids
  induction ids with
  | nil => intro s; exact sameCore_refl s
  | cons u rest ih =>
    intro s
    simp only [remove_all_with]
    split
    · exact sameCore_trans (h s u) (ih _)
    · exact h s u

lemma remove_user_fuel_core (ok : Nat → Bool) :
    ∀ (fuel) (locked : Bool) (s : DocumentCollaborationManager) (u : String),
    sameCore s (remove_user_fuel ok fuel locked s u).state := by
  intro fuel
  induction fuel with
  | zero =>
    intro locked s u
    cases locked <;> exact sameCore_refl s
  | succ fuel ih =>
    intro locked s u
    cases locked with
    | true => exact sameCore_refl s
    | false =>
      simp only [remove_user_fuel]
      cases hu : dictGet ({ s with connections := dictDel s.connections u } :
          DocumentCollaborationManager).users u with
      | none => exact ⟨rfl, rfl, rfl, rfl⟩
      | some cu =>
        simp only [broadcast_except_user_with]
        split <;>
        exact sameCore_trans (⟨rfl, rfl, rfl, rfl⟩ : sameCore s _)
          (remove_all_with_core _ (fun s' _ => sameCore_refl s') _ _)

lemma remove_user_core (ok : Nat → Bool) (s : DocumentCollaborationManager)
    (u : String) : sameCore s (remove_user ok s u).state :=
  remove_user_fuel_core ok _ false s u

lemma broadcast_except_user_core (ok : Nat → Bool) (locked : Bool)
    (s : DocumentCollaborationManager) (e : String) (m : Msg) :
    sameCore s (broadcast_except_user ok locked s e m).state := by
  simp only [broadcast_except_user, broadcast_except_user_with]
  exact remove_all_with_core _
    (fun s' v => remove_user_fuel_core ok _ locked s' v) _ _

lemma dictGet_none_iff (l : List (String × α)) (k : String) :
    dictGet l k = none ↔ hasKey l k = false := by
  induction l with
  | nil => simp [dictGet, hasKey]
  | cons p rest ih =>
    by_cases hk : (p.1 == k) = true
    · simp [dictGet, hasKey, hk]
    · simp only [dictGet, hasKey, List.any_cons]
      rw [if_neg hk]
      simp only [hk, Bool.false_or]
      exact ih

/-- A removal cascade only ever shrinks the two session maps. -/
def shrinks (s t : DocumentCollaborationManager) : Prop :=
  t.connections.Sublist s.connections ∧ t.users.Sublist s.users

lemma shrinks_refl (s : DocumentCollaborationManager) : shrinks s s :=
  ⟨List.Sublist.refl _, List.Sublist.refl _⟩

lemma shrinks_trans {s t w : DocumentCollaborationManager}
    (h1 : shrinks s t) (h2 : shrinks t w) : shrinks s w :=
  ⟨h2.1.trans h1.1, h2.2.trans h1.2⟩

lemma remove_all_with_shrinks
    (rm : DocumentCollaborationManager → String → StepResult)
    (h : ∀ s u, shrinks s (rm s u).state) :
    ∀ (ids : List String) (s), shrinks s (remove_all_with rm s ids).state := by
  intro ids
  induction ids with
  | nil => intro s; exact shrinks_refl s
  | cons u rest ih =>
    intro s
    simp only [remove_all_with]
    split
    · exact shrinks_trans (h s u) (ih _)
    · exact h s u

lemma remove_user_fuel_shrinks (ok : Nat → Bool) :
    ∀ (fuel) (locked : Bool) (s : DocumentCollaborationManager) (u : String),
    shrinks s (remove_user_fuel ok fuel locked s u).state := by
  intro fuel
  induction fuel with
  | zero =>
    intro locked s u
    cases locked <;> exact shrinks_refl s
  | succ fuel ih =>
    intro locked s u
    cases locked with
    | true => exact shrinks_refl s
    | false =>
      simp only [remove_user_fuel]
      cases hu : dictGet ({ s with connections := dictDel s.connections u } :
          DocumentCollaborationManager).users u with
      | none => exact ⟨dictDel_sublist _ _, List.Sublist.refl _⟩
      | some cu =>
        simp only [broadcast_except_user_with]
        split <;>
        exact shrinks_trans
          (⟨dictDel_sublist _ _, dictDel_sublist _ _⟩ : shrinks s _)
          (remove_all_with_shrinks _ (fun s' _ => shrinks_refl s') _ _)

lemma remove_user_fuel_removed (ok : Nat → Bool) (fuel : Nat)
    (s : DocumentCollaborationManager) (u : String) (h : 1 ≤ fuel) :
    hasKey (remove_user_fuel ok fuel false s u).state.connections u = false ∧
    hasKey (remove_user_fuel ok fuel false s u).state.users u = false := by
  obtain ⟨fuel, rfl⟩ : ∃ f, fuel = f + 1 :=
    ⟨fuel - 1, (Nat.succ_pred_eq_of_pos h).symm⟩
  simp only [remove_user_fuel]
  cases hu : dictGet ({ s with connections := dictDel s.connections u } :
      DocumentCollaborationManager).users u with
  | none =>
    refine ⟨hasKey_dictDel _ _, ?_⟩
    exact (dictGet_none_iff _ _).mp hu
  | some cu =>
    simp only [broadcast_except_user_with]
    split <;>
    refine ⟨hasKey_false_of_sublist u
        (remove_all_with_shrinks _ (fun s' _ => shrinks_refl s') _ _).1
        (hasKey_dictDel _ _),
      hasKey_false_of_sublist u
        (remove_all_with_shrinks _ (fun s' _ => shrinks_refl s') _ _).2
        (hasKey_dictDel _ _)⟩

lemma manager_eta_connections (s : DocumentCollaborationManager)
    (c : List (String × Nat)) (h : c = s.connections) :
    ({ s with connections := c } : DocumentCollaborationManager) = s := by
  cases s
  subst h
  rfl

lemma remove_user_fuel_noop (ok : Nat → Bool) (fuel : Nat)
    (s : DocumentCollaborationManager) (u : String)
    (hc : hasKey s.connections u = false) (hu : hasKey s.users u = false) :
    remove_user_fuel ok fuel false s u = ⟨s, [], true⟩ := by
  cases fuel with
  | zero => rfl
  | succ fuel =>
    simp only [remove_user_fuel]
    have h1 : dictDel s.connections u = s.connections := dictDel_eq_self _ _ hc
    rw [manager_eta_connections s _ h1]
    rw [dictGet_eq_none_of_hasKey_false _ _ hu]


/-- Effects a removal cascade may emit: `user_left` sends, failed sends,
presence removals. -/
def is_cascade_eff : Eff → Bool
  | .send _ (.user_left _ _) => true
  | .send_failed _ _ => true
  | .remove_user_presence _ _ => true
  | _ => false

lemma broadcast_sends_mem {ok : Nat → Bool} {s : DocumentCollaborationManager}
    {ex : String} {m : Msg} {e : Eff} (he : e ∈ broadcast_sends ok s ex m) :
    ∃ v, v ≠ ex ∧ (e = Eff.send v m ∨ e = Eff.send_failed v m) := by
  rcases List.mem_filterMap.mp he with ⟨p, _, hp⟩
  by_cases hv : p.1 ≠ ex
  · rw [if_pos hv] at hp
    refine ⟨p.1, hv, ?_⟩
    cases hok : ok p.2 <;> rw [hok] at hp <;>
      simp only [Option.some.injEq] at hp <;> [exact Or.inr hp.symm; exact Or.inl hp.symm]
  · rw [if_neg hv] at hp
    cases hp

lemma remove_all_with_trace
    (rm : DocumentCollaborationManager → String → StepResult)
    (h : ∀ s u, ∀ e ∈ (rm s u).trace, is_cascade_eff e = true) :
    ∀ (ids : List String) (s) (e), e ∈ (remove_all_with rm s ids).trace →
    is_cascade_eff e = true := by
  intro ids
  induction ids with
  | nil => intro s e he; cases he
  | cons u rest ih =>
    intro s e he
    simp only [remove_all_with] at he
    revert he
    split
    · intro he
      rcases List.mem_append.mp he with h1 | h2
      · exact h s u e h1
      · exact ih _ e h2
    · intro he
      exact h s u e he

lemma remove_user_fuel_trace (ok : Nat → Bool) :
    ∀ (fuel) (locked : Bool) (s : DocumentCollaborationManager) (u : String)
    (e : Eff),
    e ∈ (remove_user_fuel ok fuel locked s u).trace → is_cascade_eff e = true := by
  intro fuel
  induction fuel with
  | zero =>
    intro locked s u e he
    cases locked <;> cases he
  | succ fuel ih =>
    intro locked s u e he
    cases locked with
    | true => cases he
    | false =>
      simp only [remove_user_fuel] at he
      revert he
      cases hu : dictGet ({ s with connections := dictDel s.connections u } :
          DocumentCollaborationManager).users u with
      | none => intro he; cases he
      | some cu =>
        simp only [broadcast_except_user_with]
        split
        · intro he
          rcases List.mem_append.mp he with h1 | h2
          · rcases List.mem_append.mp h1 with hs | hr
            · rcases broadcast_sends_mem hs with ⟨v, _, hv | hv⟩ <;> subst hv <;> rfl
            · exact remove_all_with_trace _ (fun s' v' e' he' => by simp at he') _ _ e hr
          · simp only [List.mem_singleton] at h2
            subst h2
            rfl
        · intro he
          rcases List.mem_append.mp he with hs | hr
          · rcases broadcast_sends_mem hs with ⟨v, _, hv | hv⟩ <;> subst hv <;> rfl
          · exact remove_all_with_trace _ (fun s' v' e' he' => by simp at he') _ _ e hr

lemma broadcast_except_user_with_trace
    (rm : DocumentCollaborationManager → String → StepResult)
    (hrm : ∀ s u, ∀ e ∈ (rm s u).trace, is_cascade_eff e = true)
    (ok : Nat → Bool) (s : DocumentCollaborationManager) (ex : String) (m : Msg)
    (e : Eff) (he : e ∈ (broadcast_except_user_with rm ok s ex m).trace) :
    (∃ v, v ≠ ex ∧ (e = Eff.send v m ∨ e = Eff.send_failed v m)) ∨
      is_cascade_eff e = true := by
  simp only [broadcast_except_user_with] at he
  rcases List.mem_append.mp he with h1 | h2
  · exact Or.inl (broadcast_sends_mem h1)
  · exact Or.inr (remove_all_with_trace _ hrm _ _ e h2)

lemma broadcast_except_user_trace (ok : Nat → Bool) (locked : Bool)
    (s : DocumentCollaborationManager) (ex : String) (m : Msg) (e : Eff)
    (he : e ∈ (broadcast_except_user ok locked s ex m).trace) :
    (∃ v, v ≠ ex ∧ (e = Eff.send v m ∨ e = Eff.send_failed v m)) ∨
      is_cascade_eff e = true :=
  broadcast_except_user_with_trace _
    (fun s' v => remove_user_fuel_trace ok _ locked s' v) ok s ex m e he

/-! ## Operation-level helper lemmas -/

lemma send_to_user_core (ok : Nat → Bool) (locked : Bool)
    (s : DocumentCollaborationManager)
    (u : String) (m : Msg) : sameCore s (send_to_user ok locked s u m).state := by
  unfold send_to_user
  cases dictGet s.connections u with
  | none => exact sameCore_refl s
  | some ws =>
    dsimp only
    by_cases hok : ok ws = true
    · rw [if_pos hok]; exact sameCore_refl s
    · rw [if_neg hok]; exact remove_user_fuel_core ok _ locked s u

lemma sameCore_ite (c : Prop) [Decidable c] (s : DocumentCollaborationManager)
    (a b : StepResult)
    (ha : sameCore s a.state) (hb : sameCore s b.state) :
    sameCore s (if c then a else b).state := by
  split <;> assumption

lemma send_to_user_sent (ok : Nat → Bool) (locked : Bool)
    (s : DocumentCollaborationManager)
    (u : String) (m : Msg) (ws : Nat)
    (hget : dictGet s.connections u = some ws) (hok : ok ws = true) :
    send_to_user ok locked s u m = ⟨s, [Eff.send u m], true⟩ := by
  unfold send_to_user
  rw [hget]
  dsimp only
  rw [if_pos hok]

lemma disconnected_of_nil (ok : Nat → Bool) (s : DocumentCollaborationManager)
    (ex : String) (h : ∀ p ∈ s.connections, ok p.2 = true) :
    disconnected_of ok s ex = [] := by
  unfold disconnected_of
  rw [List.filterMap_eq_nil_iff]
  intro p hp
  rw [if_neg]
  rintro ⟨-, hc⟩
  rw [h p hp] at hc
  cases hc

lemma broadcast_except_user_all_ok (ok : Nat → Bool) (locked : Bool)
    (s : DocumentCollaborationManager) (ex : String) (m : Msg)
    (h : ∀ p ∈ s.connections, ok p.2 = true) :
    broadcast_except_user ok locked s ex m =
      ⟨s, s.connections.filterMap (fun p =>
        if p.1 ≠ ex then some (Eff.send p.1 m) else none), true⟩ := by
  unfold broadcast_except_user broadcast_except_user_with
  rw [disconnected_of_nil ok s ex h]
  simp only [remove_all_with, List.append_nil]
  congr 1
  unfold broadcast_sends
  apply List.filterMap_congr
  intro p hp
  by_cases hv : p.1 ≠ ex
  · rw [if_pos hv, if_pos hv, h p hp]
    rfl
  · rw [if_neg hv, if_neg hv]

lemma handle_yjs_update_fst (ok : Nat → Bool) (now : Int)
    (s : DocumentCollaborationManager) (u : String) (b : Bytes) :
    (handle_yjs_update ok now s u b).state =
      (broadcast_except_user ok true
        { s with
          update_queue := s.update_queue ++
            [{ doc_id := s.doc_id, user_id := u, update_data := b,
               timestamp := now, version := s.version + 1 }],
          version := s.version + 1,
          document_state := some b } u
        (Msg.yjs_update b (s.version + 1) u)).state := by
  simp only [handle_yjs_update]
  split
  · rfl
  · split <;> rfl

lemma handle_yjs_update_state (ok : Nat → Bool) (now : Int)
    (s : DocumentCollaborationManager) (u : String) (b : Bytes) :
    (handle_yjs_update ok now s u b).state.version = s.version + 1 ∧
    (handle_yjs_update ok now s u b).state.document_state = some b ∧
    (handle_yjs_update ok now s u b).state.doc_id = s.doc_id := by
  rw [handle_yjs_update_fst]
  have hc := broadcast_except_user_core ok true
    { s with
      update_queue := s.update_queue ++
        [{ doc_id := s.doc_id, user_id := u, update_data := b,
           timestamp := now, version := s.version + 1 }],
      version := s.version + 1,
      document_state := some b } u (Msg.yjs_update b (s.version + 1) u)
  exact ⟨hc.2.1, hc.2.2.1, hc.1⟩

/-! ## C1: version counting and last-write-wins -/

lemma apply_updates_cons_completed (ok : Nat → Bool) (now : Int)
    (s : DocumentCollaborationManager) (u : String) (b : Bytes)
    (rest : List (String × Bytes))
    (h1 : (handle_yjs_update ok now s u b).completed = true) :
    apply_updates ok now s ((u, b) :: rest) =
      ⟨(apply_updates ok now (handle_yjs_update ok now s u b).state rest).state,
       (handle_yjs_update ok now s u b).trace ++
         (apply_updates ok now (handle_yjs_update ok now s u b).state rest).trace,
       (apply_updates ok now (handle_yjs_update ok now s u b).state rest).completed⟩ := by
  simp only [apply_updates]
  rw [h1]

lemma apply_updates_cons_blocked (ok : Nat → Bool) (now : Int)
    (s : DocumentCollaborationManager) (u : String) (b : Bytes)
    (rest : List (String × Bytes))
    (h1 : (handle_yjs_update ok now s u b).completed = false) :
    apply_updates ok now s ((u, b) :: rest) = handle_yjs_update ok now s u b := by
  simp only [apply_updates]
  rw [h1]

/-- C1: for every sequence of `apply_update` (`handle_yjs_update`) calls
that runs to completion on a single manager, the version afterwards equals
the initial version plus the number of updates, and `document_state` equals
the payload of the most recent update in the sequence (last-write-wins). -/
theorem c1_version_and_lww (ok : Nat → Bool) (now : Int)
    (s : DocumentCollaborationManager) (us : List (String × Bytes)) :
    (apply_updates ok now s us).completed = true →
    (apply_updates ok now s us).state.version = s.version + us.length ∧
    (∀ u b, us.getLast? = some (u, b) →
      (apply_updates ok now s us).state.document_state = some b) := by
  induction us generalizing s with
  | nil =>
    intro _
    simp [apply_updates]
  | cons p rest ih =>
    obtain ⟨u, b⟩ := p
    intro hc
    by_cases h1 : (handle_yjs_update ok now s u b).completed = true
    · rw [apply_updates_cons_completed ok now s u b rest h1] at hc ⊢
      dsimp only at hc ⊢
      have hrest := ih (handle_yjs_update ok now s u b).state hc
      constructor
      · rw [hrest.1, (handle_yjs_update_state ok now s u b).1]
        simp only [List.length_cons]
        omega
      · intro u' b' hlast
        cases rest with
        | nil =>
          simp only [List.getLast?_singleton, Option.some.injEq] at hlast
          simp only [apply_updates]
          rw [(handle_yjs_update_state ok now s u b).2.1]
          rw [show b' = b from congrArg Prod.snd hlast.symm]
        | cons q qrest =>
          rw [List.getLast?_cons_cons] at hlast
          exact hrest.2 u' b' hlast
    · have h1f : (handle_yjs_update ok now s u b).completed = false := by
        cases hx : (handle_yjs_update ok now s u b).completed
        · rfl
        · exact absurd hx h1
      rw [apply_updates_cons_blocked ok now s u b rest h1f] at hc
      exact absurd hc (by simp [h1f])

/-- Witness for C1 at a concrete completed two-update run. -/
theorem c1_witness :
    (apply_updates (fun _ => true) 0 (init_manager "d")
      [("a", [1]), ("b", [2])]).completed = true ∧
    ([("a", [1]), ("b", [2])] : List (String × Bytes)).getLast? = some ("b", [2]) ∧
    (apply_updates (fun _ => true) 0 (init_manager "d")
      [("a", [1]), ("b", [2])]).state.version = 2 ∧
    (apply_updates (fun _ => true) 0 (init_manager "d")
      [("a", [1]), ("b", [2])]).state.document_state = some [2] :=
  ⟨rfl, rfl,
   (c1_version_and_lww (fun _ => true) 0 (init_manager "d")
     [("a", [1]), ("b", [2])] rfl).1,
   (c1_version_and_lww (fun _ => true) 0 (init_manager "d")
     [("a", [1]), ("b", [2])] rfl).2 "b" [2] rfl⟩

/-! ## C9: version facts for every operation -/

lemma add_user_some_core (ok : Nat → Bool) (now : Int)
    (s : DocumentCollaborationManager) (u : String) (ws : Nat) (info : UserInfo)
    (r : StepResult)
    (hr : add_user ok now s u ws info = some r) :
    sameCore s r.state := by
  have h1 : sameCore s
      ({ s with
          connections := dictSet s.connections u ws,
          users := dictSet s.users u
            { user_id := u, name := info.name.getD "Unknown",
              color := info.color.getD "#3B82F6", last_seen := some now } } :
        DocumentCollaborationManager) := ⟨rfl, rfl, rfl, rfl⟩
  unfold add_user at hr
  dsimp only at hr
  split at hr
  · -- r2 blocked
    injection hr with hr
    subst hr
    exact sameCore_trans h1
      (sameCore_ite _ _ _ _ (send_to_user_core ok true _ u _) (sameCore_refl _))
  · -- r2 completed
    split at hr
    · -- r3 blocked
      injection hr with hr
      subst hr
      dsimp only
      refine sameCore_trans h1 ?_
      refine sameCore_trans ?_ (send_to_user_core ok true _ u _)
      exact sameCore_ite _ _ _ _ (send_to_user_core ok true _ u _) (sameCore_refl _)
    · -- r3 completed
      split at hr
      · cases hr
      · split at hr
        · -- r4 blocked
          injection hr with hr
          subst hr
          dsimp only
          refine sameCore_trans h1 ?_
          refine sameCore_trans ?_ (broadcast_except_user_core ok true _ u _)
          refine sameCore_trans ?_ (send_to_user_core ok true _ u _)
          exact sameCore_ite _ _ _ _ (send_to_user_core ok true _ u _)
            (sameCore_refl _)
        · -- r4 completed
          split at hr
          · cases hr
          · injection hr with hr
            subst hr
            dsimp only
            refine sameCore_trans h1 ?_
            refine sameCore_trans ?_ (broadcast_except_user_core ok true _ u _)
            refine sameCore_trans ?_ (send_to_user_core ok true _ u _)
            exact sameCore_ite _ _ _ _ (send_to_user_core ok true _ u _)
              (sameCore_refl _)

lemma handle_cursor_update_core (ok : Nat → Bool) (now : Int)
    (s : DocumentCollaborationManager) (u : String) (cd : CursorData) :
    sameCore s (handle_cursor_update ok now s u cd).state := by
  unfold handle_cursor_update
  split
  · dsimp only
    split <;>
    exact sameCore_trans (⟨rfl, rfl, rfl, rfl⟩ : sameCore s _)
      (broadcast_except_user_core ok false _ u
        (Msg.cursor_update u cd.position cd.selection))
  · exact sameCore_refl s

lemma cleanup_inactive_users_core (ok : Nat → Bool) (now : Int)
    (s : DocumentCollaborationManager) :
    sameCore s (cleanup_inactive_users ok now s).state := by
  unfold cleanup_inactive_users
  exact remove_all_with_core _ (fun s' v => remove_user_core ok s' v) _ _

/-- C9: `version` is a `Nat` starting at `0`; `remove_user`, `add_user`,
`handle_cursor_update` and `cleanup_inactive_users` leave it unchanged
(whether or not they run to completion), and `handle_yjs_update` increments
it by exactly one — so it never decreases. -/
theorem c9_version_monotonic :
    (∀ d, (init_manager d).version = 0) ∧
    (∀ (ok : Nat → Bool) s u, (remove_user ok s u).state.version = s.version) ∧
    (∀ (ok : Nat → Bool) now s u ws info,
      (add_user ok now s u ws info).elim True
        (fun r => r.state.version = s.version)) ∧
    (∀ (ok : Nat → Bool) now s u b,
      (handle_yjs_update ok now s u b).state.version = s.version + 1) ∧
    (∀ (ok : Nat → Bool) now s u cd,
      (handle_cursor_update ok now s u cd).state.version = s.version) ∧
    (∀ (ok : Nat → Bool) now s,
      (cleanup_inactive_users ok now s).state.version = s.version) := by
  refine ⟨fun d => rfl, fun ok s u => (remove_user_core ok s u).2.1,
    fun ok now s u ws info => ?_,
    fun ok now s u b => (handle_yjs_update_state ok now s u b).1,
    fun ok now s u cd => (handle_cursor_update_core ok now s u cd).2.1,
    fun ok now s => (cleanup_inactive_users_core ok now s).2.1⟩
  cases hr : add_user ok now s u ws info with
  | none => exact trivial
  | some r => exact (add_user_some_core ok now s u ws info r hr).2.1

lemma broadcast_sends_mem_of (ok : Nat → Bool) (s : DocumentCollaborationManager)
    (ex : String) (m : Msg) (v : String) (w : Nat)
    (hmem : (v, w) ∈ s.connections) (hne : v ≠ ex) (hok : ok w = true) :
    Eff.send v m ∈ broadcast_sends ok s ex m := by
  apply List.mem_filterMap.mpr
  refine ⟨(v, w), hmem, ?_⟩
  rw [if_pos hne, hok]
  rfl

lemma broadcast_send_mem (ok : Nat → Bool) (locked : Bool)
    (s : DocumentCollaborationManager)
    (ex : String) (m : Msg) (v : String) (w : Nat)
    (hmem : (v, w) ∈ s.connections) (hne : v ≠ ex) (hok : ok w = true) :
    Eff.send v m ∈ (broadcast_except_user ok locked s ex m).trace := by
  unfold broadcast_except_user broadcast_except_user_with
  exact List.mem_append_left _ (broadcast_sends_mem_of ok s ex m v w hmem hne hok)

/-! ## C3: no echo of updates to the originator -/

/-- A successful delivery of a `yjs_update` message to user `u`. -/
def is_yjs_update_send_to (u : String) : Eff → Bool
  | .send v (.yjs_update _ _ _) => v == u
  | _ => false

lemma not_yjs_send_of_cascade (u : String) (e : Eff)
    (h : is_cascade_eff e = true) : is_yjs_update_send_to u e = false := by
  cases e with
  | send v msg => cases msg <;> simp_all [is_cascade_eff, is_yjs_update_send_to]
  | send_failed v msg => rfl
  | set_user_presence a b => rfl
  | remove_user_presence a b => rfl
  | cache_document a b c => rfl
  | publish_cursor_update a b c d => rfl
  | persist_attempt a => rfl
  | db_write a b c => rfl
  | close a b => rfl

/-- C3: the broadcast of `handle_yjs_update` by user `u` reaches every other
healthy connected session — the sends all precede the (possibly
deadlocking) removals — and is never delivered back to `u`'s own
connection: the count of `yjs_update` sends addressed to `u` in the emitted
trace is zero, for every state and failure pattern. -/
theorem c3_no_echo_to_originator (ok : Nat → Bool) (now : Int)
    (s : DocumentCollaborationManager) (u : String) (b : Bytes) :
    (handle_yjs_update ok now s u b).trace.countP (is_yjs_update_send_to u) = 0 ∧
    (∀ v w, (v, w) ∈ s.connections → v ≠ u → ok w = true →
      Eff.send v (Msg.yjs_update b (s.version + 1) u) ∈
        (handle_yjs_update ok now s u b).trace) := by
  have hbr : ∀ (s' : DocumentCollaborationManager) (locked : Bool) (m' : Msg)
      (e' : Eff), e' ∈ (broadcast_except_user ok locked s' u m').trace →
      is_yjs_update_send_to u e' = false := by
    intro s' locked m' e' he'
    rcases broadcast_except_user_trace ok locked s' u m' e' he' with
      ⟨v, hv, rfl | rfl⟩ | hcas
    · cases m' <;> simp [is_yjs_update_send_to, hv]
    · rfl
    · exact not_yjs_send_of_cascade u e' hcas
  constructor
  · rw [List.countP_eq_zero]
    intro e he
    simp only [handle_yjs_update] at he
    split at he
    · simp [hbr _ true _ e he]
    · split at he
      · rcases List.mem_append.mp he with h1 | h2
        · rcases List.mem_append.mp h1 with hb | hc
          · simp [hbr _ true _ e hb]
          · simp only [List.mem_singleton] at hc
            subst hc
            simp [is_yjs_update_send_to]
        · unfold persist_document_state at h2
          split at h2 <;> simp only [List.mem_singleton, List.mem_cons] at h2 <;>
            rcases h2 with rfl | h2 <;> simp_all [is_yjs_update_send_to]
      · rcases List.mem_append.mp he with hb | hc
        · simp [hbr _ true _ e hb]
        · simp only [List.mem_singleton] at hc
          subst hc
          simp [is_yjs_update_send_to]
  · intro v w hmem hne hok
    simp only [handle_yjs_update]
    split
    · exact broadcast_send_mem ok true _ u _ v w hmem hne hok
    · split
      · apply List.mem_append_left
        apply List.mem_append_left
        exact broadcast_send_mem ok true _ u _ v w hmem hne hok
      · apply List.mem_append_left
        exact broadcast_send_mem ok true _ u _ v w hmem hne hok

/-- Witness for C3 at a concrete two-session manager: the broadcast reaches
`"b"` and never `"a"`, the sender. -/
theorem c3_witness :
    (("b", 2) ∈ ([("a", 1), ("b", 2)] : List (String × Nat)) ∧
      ("b" : String) ≠ "a") ∧
    (handle_yjs_update (fun _ => true) 0
      { doc_id := "d", connections := [("a", 1), ("b", 2)], version := 3 }
      "a" [5]).trace.countP (is_yjs_update_send_to "a") = 0 ∧
    Eff.send "b" (Msg.yjs_update [5] 4 "a") ∈
      (handle_yjs_update (fun _ => true) 0
        { doc_id := "d", connections := [("a", 1), ("b", 2)], version := 3 }
        "a" [5]).trace :=
  ⟨⟨by decide, by decide⟩,
   (c3_no_echo_to_originator (fun _ => true) 0
     { doc_id := "d", connections := [("a", 1), ("b", 2)], version := 3 }
     "a" [5]).1,
   (c3_no_echo_to_originator (fun _ => true) 0
     { doc_id := "d", connections := [("a", 1), ("b", 2)], version := 3 }
     "a" [5]).2 "b" 2 (by decide) (by decide) rfl⟩

/-! ## C4: `remove_user` is idempotent -/

/-- C4: a completed removal leaves nothing for a second `remove_user` of the
same user to do — the second call returns the same state with no messages —
and removing a user absent from the manager is a no-op.  (Completion of the
first call also means its lock was released, so the second call can run.) -/
theorem c4_remove_user_idempotent :
    (∀ (ok : Nat → Bool) (s : DocumentCollaborationManager) (u : String),
      (remove_user ok s u).completed = true →
      remove_user ok (remove_user ok s u).state u =
        ⟨(remove_user ok s u).state, [], true⟩) ∧
    (∀ (ok : Nat → Bool) (s : DocumentCollaborationManager) (u : String),
      hasKey s.connections u = false → hasKey s.users u = false →
      remove_user ok s u = ⟨s, [], true⟩) := by
  constructor
  · intro ok s u _
    have h := remove_user_fuel_removed ok (s.connections.length + 1) s u (by omega)
    exact remove_user_fuel_noop ok _ _ u h.1 h.2
  · intro ok s u hc hu
    exact remove_user_fuel_noop ok _ s u hc hu

/-- Witness for C4 at a concrete manager. -/
theorem c4_witness :
    (remove_user (fun _ => true) (init_manager "d") "u").completed = true ∧
    hasKey (init_manager "d").connections "u" = false ∧
    hasKey (init_manager "d").users "u" = false ∧
    remove_user (fun _ => true) (remove_user (fun _ => true) (init_manager "d") "u").state "u" =
      ⟨(remove_user (fun _ => true) (init_manager "d") "u").state, [], true⟩ ∧
    remove_user (fun _ => true) (init_manager "d") "u" = ⟨init_manager "d", [], true⟩ :=
  ⟨rfl, rfl, rfl,
   c4_remove_user_idempotent.1 (fun _ => true) (init_manager "d") "u" rfl,
   c4_remove_user_idempotent.2 (fun _ => true) (init_manager "d") "u" rfl rfl⟩

/-! ## C5: permission denial has no side effects -/

/-- C5: when the permission check denies access, `join_document` closes the
channel with code 4003 ("Forbidden") and returns with the registry
unchanged: no manager is created or modified, no session registered. -/
theorem c5_denied_join_no_side_effects (perm : String → String → Bool)
    (ok : Nat → Bool) (now : Int) (svc : CollaborationService)
    (doc_id user_id : String) (ws : Nat) (info : UserInfo)
    (h : perm user_id doc_id = false) :
    join_document perm ok now svc doc_id user_id ws info =
      some (svc, [Eff.close 4003 "Forbidden"], true) := by
  unfold join_document
  rw [if_neg]
  simp [h]

/-- Witness for C5 at a concrete denied join. -/
theorem c5_witness :
    (fun _ _ => false : String → String → Bool) "u" "d" = false ∧
    join_document (fun _ _ => false) (fun _ => true) 0 { documents := [] }
      "d" "u" 3 {} =
      some ({ documents := [] }, [Eff.close 4003 "Forbidden"], true) :=
  ⟨rfl, c5_denied_join_no_side_effects (fun _ _ => false) (fun _ => true) 0
    { documents := [] } "d" "u" 3 {} rfl⟩

/-! ## C6: the flush-every-10 policy -/

/-- An invocation of `_persist_document_state`. -/
def is_persist_attempt : Eff → Bool
  | .persist_attempt _ => true
  | _ => false

lemma not_persist_of_cascade (e : Eff)
    (h : is_cascade_eff e = true) : is_persist_attempt e = false := by
  cases e with
  | send v msg => rfl
  | send_failed v msg => rfl
  | set_user_presence a b => rfl
  | remove_user_presence a b => rfl
  | cache_document a b c => rfl
  | publish_cursor_update a b c d => rfl
  | persist_attempt a => simp [is_cascade_eff] at h
  | db_write a b c => rfl
  | close a b => rfl

lemma broadcast_countP_persist (ok : Nat → Bool) (locked : Bool)
    (s : DocumentCollaborationManager) (ex : String) (m : Msg) :
    (broadcast_except_user ok locked s ex m).trace.countP is_persist_attempt = 0 := by
  rw [List.countP_eq_zero]
  intro e he
  rcases broadcast_except_user_trace ok locked s ex m e he with ⟨v, _, rfl | rfl⟩ | hcas
  · simp [is_persist_attempt]
  · simp [is_persist_attempt]
  · simp [not_persist_of_cascade e hcas]

lemma persist_document_state_countP (s : DocumentCollaborationManager) :
    (persist_document_state s).countP is_persist_attempt = 1 := by
  unfold persist_document_state
  split <;> rfl

lemma handle_yjs_update_persist_count (ok : Nat → Bool) (now : Int)
    (s : DocumentCollaborationManager) (u : String) (b : Bytes)
    (hc : (handle_yjs_update ok now s u b).completed = true) :
    (handle_yjs_update ok now s u b).trace.countP is_persist_attempt =
      if (s.version + 1) % 10 = 0 then 1 else 0 := by
  have hv : (broadcast_except_user ok true
      { s with
        update_queue := s.update_queue ++
          [{ doc_id := s.doc_id, user_id := u, update_data := b,
             timestamp := now, version := s.version + 1 }],
        version := s.version + 1,
        document_state := some b } u
      (Msg.yjs_update b (s.version + 1) u)).state.version = s.version + 1 :=
    (broadcast_except_user_core ok true _ u _).2.1
  simp only [handle_yjs_update] at hc ⊢
  cases hb : (broadcast_except_user ok true
      { s with
        update_queue := s.update_queue ++
          [{ doc_id := s.doc_id, user_id := u, update_data := b,
             timestamp := now, version := s.version + 1 }],
        version := s.version + 1,
        document_state := some b } u
      (Msg.yjs_update b (s.version + 1) u)).completed with
  | false => simp [hb] at hc
  | true =>
    dsimp only
    simp only [hv]
    by_cases hten : (s.version + 1) % 10 = 0
    · rw [if_pos hten, if_pos hten]
      simp only [List.countP_append, broadcast_countP_persist,
        persist_document_state_countP]
      rfl
    · rw [if_neg hten, if_neg hten]
      simp only [List.countP_append, broadcast_countP_persist]
      rfl

/-- Expected number of `_persist_document_state` invocations over `n`
updates starting from version `v`: one per version divisible by 10. -/
def flush_count (v : Nat) : Nat → Nat
  | 0 => 0
  | n + 1 => (if (v + 1) % 10 = 0 then 1 else 0) + flush_count (v + 1) n

lemma apply_updates_persist_count (ok : Nat → Bool) (now : Int) :
    ∀ (us : List (String × Bytes)) (s : DocumentCollaborationManager),
    (apply_updates ok now s us).completed = true →
    (apply_updates ok now s us).trace.countP is_persist_attempt =
      flush_count s.version us.length := by
  intro us
  induction us with
  | nil => intro s _; rfl
  | cons p rest ih =>
    intro s hc
    obtain ⟨u, b⟩ := p
    by_cases h1 : (handle_yjs_update ok now s u b).completed = true
    · rw [apply_updates_cons_completed ok now s u b rest h1] at hc ⊢
      dsimp only at hc ⊢
      rw [List.countP_append,
        handle_yjs_update_persist_count ok now s u b h1,
        ih _ hc, (handle_yjs_update_state ok now s u b).1]
      rfl
    · have h1f : (handle_yjs_update ok now s u b).completed = false := by
        cases hx : (handle_yjs_update ok now s u b).completed
        · rfl
        · exact absurd hx h1
      rw [apply_updates_cons_blocked ok now s u b rest h1f] at hc
      exact absurd hc (by simp [h1f])

/-- C6: a completed run of 10 `handle_yjs_update` calls starting from a
fresh manager invokes `_persist_document_state` exactly once. -/
theorem c6_flush_every_ten (ok : Nat → Bool) (now : Int) (d : String)
    (us : List (String × Bytes)) (h : us.length = 10)
    (hc : (apply_updates ok now (init_manager d) us).completed = true) :
    (apply_updates ok now (init_manager d) us).trace.countP is_persist_attempt = 1 := by
  rw [apply_updates_persist_count ok now us (init_manager d) hc, h]
  show flush_count 0 10 = 1
  rfl

/-- Witness for C6 with ten concrete updates. -/
theorem c6_witness :
    (List.replicate 10 (("u", [1]) : String × Bytes)).length = 10 ∧
    (apply_updates (fun _ => true) 0 (init_manager "d")
      (List.replicate 10 ("u", [1]))).completed = true ∧
    (apply_updates (fun _ => true) 0 (init_manager "d")
      (List.replicate 10 ("u", [1]))).trace.countP is_persist_attempt = 1 :=
  ⟨rfl, rfl, c6_flush_every_ten (fun _ => true) 0 "d"
    (List.replicate 10 ("u", [1])) rfl rfl⟩

/-! ## C8: a failed broadcast target deadlocks instead of being removed -/

/-- C8 (code bug): when a send inside `_broadcast_except_user` fails while
the calling operation holds the manager's lock (`add_user`,
`handle_yjs_update`, or `remove_user` itself), every healthy non-excluded
session does still receive the message — the sends all precede the
removals — but the subsequent `remove_user(disconnected)` blocks forever
re-acquiring the non-reentrant `asyncio.Lock`: the broadcast never
completes, the manager state is left exactly as it was, and in particular
the failed session is **not** removed, contradicting the documented
"implicit disconnect" semantics. -/
theorem c8_broadcast_deadlock (ok : Nat → Bool)
    (s : DocumentCollaborationManager) (ex : String) (m : Msg)
    (v : String) (w : Nat)
    (hmem : (v, w) ∈ s.connections) (hne : v ≠ ex) (hdead : ok w = false) :
    (∀ v' w', (v', w') ∈ s.connections → v' ≠ ex → ok w' = true →
      Eff.send v' m ∈ (broadcast_except_user ok true s ex m).trace) ∧
    (broadcast_except_user ok true s ex m).completed = false ∧
    (broadcast_except_user ok true s ex m).state = s := by
  obtain ⟨d, rest, hd⟩ : ∃ d rest, disconnected_of ok s ex = d :: rest := by
    have hv : v ∈ disconnected_of ok s ex := by
      apply List.mem_filterMap.mpr
      exact ⟨(v, w), hmem, by rw [if_pos ⟨hne, hdead⟩]⟩
    cases hdis : disconnected_of ok s ex with
    | nil => rw [hdis] at hv; cases hv
    | cons d rest => exact ⟨d, rest, rfl⟩
  have hblocked : remove_all_with
      (fun s' v' => remove_user_fuel ok (s.connections.length + 1) true s' v')
      s (disconnected_of ok s ex) = ⟨s, [], false⟩ := by
    rw [hd]
    simp [remove_all_with, remove_user_fuel]
  refine ⟨?_, ?_, ?_⟩
  · intro v' w' hm hn ho
    exact broadcast_send_mem ok true s ex m v' w' hm hn ho
  · show (broadcast_except_user ok true s ex m).completed = false
    unfold broadcast_except_user broadcast_except_user_with
    rw [hblocked]
  · show (broadcast_except_user ok true s ex m).state = s
    unfold broadcast_except_user broadcast_except_user_with
    rw [hblocked]

/-- Witness for C8's deadlock theorem: a three-session manager broadcasting
from `"o"` where the send to `"b"` fails: `"a"` still receives the message,
the broadcast never completes, and `"b"` is still connected afterwards. -/
theorem c8_witness :
    (("a", 2) ∈ ([("o", 1), ("a", 2), ("b", 3)] : List (String × Nat)) ∧
     ("b", 3) ∈ ([("o", 1), ("a", 2), ("b", 3)] : List (String × Nat)) ∧
     (fun n => n != 3 : Nat → Bool) 2 = true ∧
     (fun n => n != 3 : Nat → Bool) 3 = false) ∧
    Eff.send "a" (Msg.yjs_update [9] 1 "o") ∈
      (broadcast_except_user (fun n => n != 3) true
        { doc_id := "d", connections := [("o", 1), ("a", 2), ("b", 3)] }
        "o" (Msg.yjs_update [9] 1 "o")).trace ∧
    (broadcast_except_user (fun n => n != 3) true
        { doc_id := "d", connections := [("o", 1), ("a", 2), ("b", 3)] }
        "o" (Msg.yjs_update [9] 1 "o")).completed = false ∧
    (broadcast_except_user (fun n => n != 3) true
        { doc_id := "d", connections := [("o", 1), ("a", 2), ("b", 3)] }
        "o" (Msg.yjs_update [9] 1 "o")).state =
      { doc_id := "d", connections := [("o", 1), ("a", 2), ("b", 3)] } :=
  ⟨⟨by decide, by decide, rfl, rfl⟩,
   (c8_broadcast_deadlock (fun n => n != 3)
      { doc_id := "d", connections := [("o", 1), ("a", 2), ("b", 3)] }
      "o" (Msg.yjs_update [9] 1 "o") "b" 3 (by decide) (by decide) rfl).1
     "a" 2 (by decide) (by decide) rfl,
   (c8_broadcast_deadlock (fun n => n != 3)
      { doc_id := "d", connections := [("o", 1), ("a", 2), ("b", 3)] }
      "o" (Msg.yjs_update [9] 1 "o") "b" 3 (by decide) (by decide) rfl).2.1,
   (c8_broadcast_deadlock (fun n => n != 3)
      { doc_id := "d", connections := [("o", 1), ("a", 2), ("b", 3)] }
      "o" (Msg.yjs_update [9] 1 "o") "b" 3 (by decide) (by decide) rfl).2.2⟩

/-! ## C7: `ping` touches `last_seen` but the server sends no reply -/

/-- C7 (amended): dispatching a `ping` for a connected user refreshes that
user's `last_seen` and emits no message at all — in particular no `pong`
reply is sent back to the sender.  The ping branch completes (it never
touches the lock or a socket). -/
theorem c7_ping_touch_no_reply (ok : Nat → Bool) (now : Int)
    (svc : CollaborationService) (doc_id user_id : String)
    (message : InboundMessage) (doc_manager : DocumentCollaborationManager)
    (hdoc : dictGet svc.documents doc_id = some doc_manager)
    (htype : message.type = some "ping") :
    ∃ m', handle_websocket_message ok now svc doc_id user_id message =
        some ({ documents := dictSet svc.documents doc_id m' }, [], true) ∧
      dictGet m'.users user_id =
        (dictGet doc_manager.users user_id).map
          (fun cu => { cu with last_seen := some now }) := by
  have h1 : (message.type == some "yjs_update") = false := by rw [htype]; rfl
  have h2 : (message.type == some "cursor_update") = false := by rw [htype]; rfl
  have h3 : (message.type == some "ping") = true := by rw [htype]; rfl
  unfold handle_websocket_message
  rw [hdoc]
  dsimp only
  rw [h1, h2, h3]
  simp only [Bool.false_eq_true, if_false, if_true]
  by_cases hk : hasKey doc_manager.users user_id = true
  · rw [if_pos hk]
    refine ⟨_, rfl, ?_⟩
    exact dictGet_map_if doc_manager.users user_id
      (fun cu => { cu with last_seen := some now })
  · rw [if_neg hk]
    refine ⟨doc_manager, rfl, ?_⟩
    rw [dictGet_eq_none_of_hasKey_false _ _ (by simpa using hk)]
    rfl

/-- Concrete manager/service used to settle C7. -/
def ping_mgr : DocumentCollaborationManager :=
  { doc_id := "d",
    connections := [("u", 1)],
    users := [("u", { user_id := "u", name := "N", color := "#111",
                      last_seen := some 0 })] }

def ping_svc : CollaborationService := { documents := [("d", ping_mgr)] }

/-- C7 counterexample to the claim as stated: a `ping` from a connected user
produces an empty outbound trace — no `pong` (nor any other message) is sent
back, although the user's `last_seen` is touched. -/
theorem c7_counterexample :
    hasKey ping_mgr.users "u" = true ∧
    (handle_websocket_message (fun _ => true) 5 ping_svc "d" "u"
      { type := some "ping" }).map (fun r => (r.2.1, r.2.2)) =
      some ([], true) := by
  constructor
  · decide
  · decide

/-- Witness for the amended C7 theorem at the concrete service. -/
theorem c7_witness :
    dictGet ping_svc.documents "d" = some ping_mgr ∧
    ({ type := some "ping" } : InboundMessage).type = some "ping" ∧
    ∃ m', handle_websocket_message (fun _ => true) 5 ping_svc "d" "u"
        { type := some "ping" } =
        some ({ documents := dictSet ping_svc.documents "d" m' }, [], true) ∧
      dictGet m'.users "u" =
        (dictGet ping_mgr.users "u").map
          (fun cu => { cu with last_seen := some 5 }) :=
  ⟨rfl, rfl, c7_ping_touch_no_reply (fun _ => true) 5 ping_svc "d" "u"
    { type := some "ping" } ping_mgr rfl rfl⟩

/-! ## C2: messages emitted by a join -/

/-- C2 (amended): on a join over healthy channels, the joining session gets
one `sync_state` exactly when `document_state` is non-null **and non-empty**
(Python truthiness), then one `users_updated` with the full user list, then
every other connected session gets one `user_joined`, and finally one
presence record is written — in that order; with every channel healthy no
send fails, so the join completes (the deadlocking removal path is never
entered). -/
theorem c2_join_message_order (ok : Nat → Bool) (now : Int)
    (s : DocumentCollaborationManager) (user_id : String) (websocket : Nat)
    (user_info : UserInfo)
    (hall : ∀ p ∈ s.connections, ok p.2 = true)
    (hok : ok websocket = true) :
    ∃ s', add_user ok now s user_id websocket user_info = some ⟨s',
      (if truthy s.document_state then
        [Eff.send user_id (Msg.sync_state (s.document_state.getD []) s.version)]
       else []) ++
      [Eff.send user_id (Msg.users_updated ((dictSet s.users user_id
        { user_id := user_id, name := user_info.name.getD "Unknown",
          color := user_info.color.getD "#3B82F6", last_seen := some now }).map
        (fun p => user_brief p.2)))] ++
      s.connections.filterMap (fun p =>
        if p.1 ≠ user_id then
          some (Eff.send p.1 (Msg.user_joined user_id
            (user_info.name.getD "Unknown") (user_info.color.getD "#3B82F6")))
        else none) ++
      [Eff.set_user_presence user_id s.doc_id], true⟩ ∧
      dictGet s'.connections user_id = some websocket ∧
      s'.version = s.version := by
  have hget : dictGet (dictSet s.connections user_id websocket) user_id =
      some websocket := dictGet_dictSet _ _ _
  have hgetu : dictGet (dictSet s.users user_id
      { user_id := user_id, name := user_info.name.getD "Unknown",
        color := user_info.color.getD "#3B82F6", last_seen := some now }) user_id =
      some { user_id := user_id, name := user_info.name.getD "Unknown",
             color := user_info.color.getD "#3B82F6", last_seen := some now } :=
    dictGet_dictSet _ _ _
  have hall1 : ∀ p ∈ dictSet s.connections user_id websocket, ok p.2 = true := by
    intro p hp
    rcases mem_dictSet hp with h | rfl
    · exact hall p h
    · exact hok
  have hfm : (dictSet s.connections user_id websocket).filterMap (fun p =>
      if p.1 ≠ user_id then
        some (Eff.send p.1 (Msg.user_joined user_id
          (user_info.name.getD "Unknown") (user_info.color.getD "#3B82F6")))
      else none) =
      s.connections.filterMap (fun p =>
        if p.1 ≠ user_id then
          some (Eff.send p.1 (Msg.user_joined user_id
            (user_info.name.getD "Unknown") (user_info.color.getD "#3B82F6")))
        else none) := by
    apply filterMap_dictSet
    intro w
    rw [if_neg]
    simp
  unfold add_user
  dsimp only
  set s1 : DocumentCollaborationManager := { s with
    connections := dictSet s.connections user_id websocket,
    users := dictSet s.users user_id
      { user_id := user_id, name := user_info.name.getD "Unknown",
        color := user_info.color.getD "#3B82F6", last_seen := some now } } with hs1
  have hget1 : dictGet s1.connections user_id = some websocket := by
    rw [hs1]; exact hget
  have hgetu1 : dictGet s1.users user_id =
      some { user_id := user_id, name := user_info.name.getD "Unknown",
             color := user_info.color.getD "#3B82F6", last_seen := some now } := by
    rw [hs1]; exact hgetu
  have hall2 : ∀ p ∈ s1.connections, ok p.2 = true := by
    rw [hs1]; exact hall1
  by_cases ht : truthy s.document_state = true
  · rw [if_pos ht,
      send_to_user_sent ok true s1 user_id
        (Msg.sync_state (s.document_state.getD []) s.version) websocket hget1 hok]
    dsimp only
    rw [send_to_user_sent ok true s1 user_id
        (Msg.users_updated (List.map (fun p => user_brief p.2) s1.users))
        websocket hget1 hok]
    dsimp only
    rw [hgetu1]
    dsimp only
    rw [broadcast_except_user_all_ok ok true s1 user_id _ hall2]
    dsimp only
    rw [hgetu1]
    refine ⟨s1, ?_, hget1, by rw [hs1]⟩
    rw [if_pos ht, hs1]
    dsimp only
    rw [hfm]
  · rw [if_neg ht]
    dsimp only
    rw [send_to_user_sent ok true s1 user_id
        (Msg.users_updated (List.map (fun p => user_brief p.2) s1.users))
        websocket hget1 hok]
    dsimp only
    rw [hgetu1]
    dsimp only
    rw [broadcast_except_user_all_ok ok true s1 user_id _ hall2]
    dsimp only
    rw [hgetu1]
    refine ⟨s1, ?_, hget1, by rw [hs1]⟩
    rw [if_neg ht, hs1]
    dsimp only
    rw [hfm]

/-- A successful delivery of a `sync_state` message. -/
def is_sync_state_send : Eff → Bool
  | .send _ (.sync_state _ _) => true
  | _ => false

/-- C2 counterexample to the claim as stated: `document_state = some b""` is
non-null, yet the joining session receives **no** `sync_state` (Python
`if self.document_state:` is false on empty bytes). -/
theorem c2_counterexample :
    ({ doc_id := "d", document_state := some [] } :
        DocumentCollaborationManager).document_state ≠ none ∧
    ((add_user (fun _ => true) 0
        ({ doc_id := "d", document_state := some [] } :
          DocumentCollaborationManager) "u" 5 { name := some "N" }).map
      (fun r => r.trace.countP is_sync_state_send)) = some 0 := by
  refine ⟨by decide, by decide⟩

/-- Concrete one-member manager with non-empty content, used for C2's
witness. -/
def join_mgr : DocumentCollaborationManager :=
  { doc_id := "d",
    connections := [("a", 1)],
    users := [("a", { user_id := "a", name := "A", color := "#222" })],
    document_state := some [7],
    version := 3 }

/-- Witness for the amended C2 theorem at a concrete join. -/
theorem c2_witness :
    (∀ p ∈ join_mgr.connections, (fun _ => true : Nat → Bool) p.2 = true) ∧
    ∃ s', add_user (fun _ => true) 0 join_mgr "u" 5 { name := some "N" } =
      some ⟨s',
        [Eff.send "u" (Msg.sync_state [7] 3)] ++
        [Eff.send "u" (Msg.users_updated
          [{ id := "a", name := "A", color := "#222",
             cursor_position := none, selection := none },
           { id := "u", name := "N", color := "#3B82F6",
             cursor_position := none, selection := none }])] ++
        [Eff.send "a" (Msg.user_joined "u" "N" "#3B82F6")] ++
        [Eff.set_user_presence "u" "d"], true⟩ ∧
      dictGet s'.connections "u" = some 5 ∧
      s'.version = 3 :=
  ⟨by decide, c2_join_message_order (fun _ => true) 0 join_mgr "u" 5
    { name := some "N" } (by decide) rfl⟩

/-! ## C10: an absent or empty `update` field is a normal empty update -/

/-- C10: dispatching a `yjs_update` message whose `update` field is missing
or the empty string is accepted as an update with payload `b""`: the version
is incremented by one, `document_state` becomes the empty byte string, a
`yjs_update` broadcast goes to every other healthy session, and nothing —
in particular no error — is sent back to the sender.  With every channel
healthy the operation completes. -/
theorem c10_missing_update_field (ok : Nat → Bool) (now : Int)
    (svc : CollaborationService) (doc_id user_id : String)
    (doc_manager : DocumentCollaborationManager) (message : InboundMessage)
    (hdoc : dictGet svc.documents doc_id = some doc_manager)
    (htype : message.type = some "yjs_update")
    (hupd : message.update = none ∨ message.update = some "")
    (hall : ∀ p ∈ doc_manager.connections, ok p.2 = true) :
    ∃ t, handle_websocket_message ok now svc doc_id user_id message =
        some ({ documents := dictSet svc.documents doc_id
                  (handle_yjs_update ok now doc_manager user_id []).state },
              t, true) ∧
      (handle_yjs_update ok now doc_manager user_id []).state.version =
        doc_manager.version + 1 ∧
      (handle_yjs_update ok now doc_manager user_id []).state.document_state =
        some [] ∧
      t = doc_manager.connections.filterMap (fun p =>
            if p.1 ≠ user_id then
              some (Eff.send p.1
                (Msg.yjs_update [] (doc_manager.version + 1) user_id))
            else none) ++
          [Eff.cache_document doc_manager.doc_id [] (doc_manager.version + 1)] ++
          (if (doc_manager.version + 1) % 10 = 0 then
            [Eff.persist_attempt doc_manager.doc_id] else []) ∧
      ∀ msg, Eff.send user_id msg ∉ t := by
  have hdec : bytes_fromhex (message.update.getD "") = some [] := by
    rcases hupd with h | h <;> rw [h] <;> rfl
  have h1 : (message.type == some "yjs_update") = true := by rw [htype]; rfl
  have htr : (handle_yjs_update ok now doc_manager user_id []).trace =
      doc_manager.connections.filterMap (fun p =>
        if p.1 ≠ user_id then
          some (Eff.send p.1
            (Msg.yjs_update [] (doc_manager.version + 1) user_id))
        else none) ++
      [Eff.cache_document doc_manager.doc_id [] (doc_manager.version + 1)] ++
      (if (doc_manager.version + 1) % 10 = 0 then
        [Eff.persist_attempt doc_manager.doc_id] else []) := by
    unfold handle_yjs_update
    dsimp only
    rw [broadcast_except_user_all_ok ok true
      { doc_manager with
        update_queue := doc_manager.update_queue ++
          [{ doc_id := doc_manager.doc_id, user_id := user_id,
             update_data := [], timestamp := now,
             version := doc_manager.version + 1 }],
        version := doc_manager.version + 1,
        document_state := some [] } user_id
      (Msg.yjs_update [] (doc_manager.version + 1) user_id) hall]
    dsimp only
    by_cases hc : (doc_manager.version + 1) % 10 = 0
    · rw [if_pos hc, if_pos hc]
      unfold persist_document_state
      dsimp only
      rw [if_neg (by decide : ¬ truthy (some []) = true)]
    · rw [if_neg hc, if_neg hc]
      rw [List.append_nil]
  have hcomp : (handle_yjs_update ok now doc_manager user_id []).completed =
      true := by
    unfold handle_yjs_update
    dsimp only
    rw [broadcast_except_user_all_ok ok true
      { doc_manager with
        update_queue := doc_manager.update_queue ++
          [{ doc_id := doc_manager.doc_id, user_id := user_id,
             update_data := [], timestamp := now,
             version := doc_manager.version + 1 }],
        version := doc_manager.version + 1,
        document_state := some [] } user_id
      (Msg.yjs_update [] (doc_manager.version + 1) user_id) hall]
    dsimp only
    split <;> rfl
  refine ⟨(handle_yjs_update ok now doc_manager user_id []).trace, ?_,
    (handle_yjs_update_state ok now doc_manager user_id []).1,
    (handle_yjs_update_state ok now doc_manager user_id []).2.1, htr, ?_⟩
  · unfold handle_websocket_message
    rw [hdoc]
    dsimp only
    rw [h1]
    simp only [if_true]
    rw [hdec]
    dsimp only
    rw [hcomp]
  · rw [htr]
    intro msg hmem
    rcases List.mem_append.mp hmem with hl | hr
    · rcases List.mem_append.mp hl with hf | hc
      · rcases List.mem_filterMap.mp hf with ⟨p, _, hp⟩
        by_cases hv : p.1 ≠ user_id
        · rw [if_pos hv] at hp
          exact hv (congrArg (fun e => match e with
            | Eff.send v _ => v
            | _ => "") (Option.some.inj hp))
        · rw [if_neg hv] at hp
          cases hp
      · simp only [List.mem_singleton] at hc
        cases hc
    · split at hr
      · simp only [List.mem_singleton] at hr
        cases hr
      · cases hr

/-- Concrete two-session service used for C10's witness. -/
def upd_mgr : DocumentCollaborationManager :=
  { doc_id := "d",
    connections := [("a", 1), ("b", 2)],
    users := [("a", { user_id := "a", name := "A", color := "#111" }),
              ("b", { user_id := "b", name := "B", color := "#222" })],
    document_state := some [7],
    version := 3 }

def upd_svc : CollaborationService := { documents := [("d", upd_mgr)] }

/-- Witness for C10: a `yjs_update` with no `update` field from `"a"`. -/
theorem c10_witness :
    dictGet upd_svc.documents "d" = some upd_mgr ∧
    ({ type := some "yjs_update" } : InboundMessage).update = none ∧
    (∀ p ∈ upd_mgr.connections, (fun _ => true : Nat → Bool) p.2 = true) ∧
    ∃ t, handle_websocket_message (fun _ => true) 0 upd_svc "d" "a"
        { type := some "yjs_update" } =
        some ({ documents := dictSet upd_svc.documents "d"
                  (handle_yjs_update (fun _ => true) 0 upd_mgr "a" []).state },
              t, true) ∧
      (handle_yjs_update (fun _ => true) 0 upd_mgr "a" []).state.version = 4 ∧
      (handle_yjs_update (fun _ => true) 0 upd_mgr "a" []).state.document_state =
        some [] ∧
      t = [Eff.send "b" (Msg.yjs_update [] 4 "a")] ++
          [Eff.cache_document "d" [] 4] ++ [] ∧
      ∀ msg, Eff.send "a" msg ∉ t :=
  ⟨rfl, rfl, by decide,
   c10_missing_update_field (fun _ => true) 0 upd_svc "d" "a" upd_mgr
     { type := some "yjs_update" } rfl rfl (Or.inl rfl) (by decide)⟩
